import Mathlib

/-! svgscene: the DOM query engine (`svgdocument.h`) and the metadata accessors it uses

A shallow embedding of `SvgDomTree` (constructor, `getElement`, `getAttrValueOr`) and of
`itemMatchesSelector` over a tree of graphics items; the function template calls in the
bodies of `find`, `findFromParentRaw` and `findAll`, checked against the declarations they
call; and the attribute and cascade resolver over the allow-list of `svgspec.h`.

* A `QGraphicsItem *` is an `Option QGraphicsItem` (`none` is `nullptr`).
* `throw std::out_of_range(msg)` is `Except.error` with one `Failure` constructor per throw site.
* `dynamic_cast<T *>` is a test of the item against a class tag (`ItemType`).
-/

namespace svgscene

/-- The Qt string type `QString`. `isEmpty()` is `String.isEmpty`, `==` is exact (case-sensitive) equality. -/
abbrev QString := String

/-- The map `QMap<QString, QString>`, the type behind `XmlAttributes` and `CssAttributes`
(`svgmetadata.h`): the stored (key, value) entries. A key is looked up from the front. -/
structure QMap where
  entries : List (QString × QString)

/-- The member `QMap::contains(key)`. -/
def QMap.contains (m : QMap) (key : QString) : Bool :=
  (m.entries.lookup key).isSome

/-- The member `QMap::value(key, defaultValue)`: the value stored under `key`, else `defaultValue`.
The one-argument form `value(key)` is `value(key, QString())`. -/
def QMap.value (m : QMap) (key : QString) (defaultValue : QString) : QString :=
  (m.entries.lookup key).getD defaultValue

/-- The alias `using XmlAttributes = QMap<QString, QString>;` (`svgmetadata.h`). -/
abbrev XmlAttributes := QMap

/-- A target class of `dynamic_cast`, the template parameter `T` / `TT` of the query API.
`any` is `QGraphicsItem` itself, the base class of every item ("QGraphicsItem corresponds to
ANY"); `subclass k` is the `k`-th class derived from it. -/
inductive ItemType where
  | any
  | subclass (k : Nat)
deriving DecidableEq

/-- A graphics item of the scene: the derived classes its dynamic type belongs to, the value of
its `MetadataType::XmlAttributes` data slot (`none`: no XML data assigned, not even empty), and
`childItems()` in order. -/
inductive QGraphicsItem where
  | mk (subclasses : List Nat) (xmlData : Option XmlAttributes)
      (childItems : List QGraphicsItem)

/-- The classes (besides `QGraphicsItem`) the item is an instance of. -/
def QGraphicsItem.subclasses : QGraphicsItem → List Nat
  | .mk s _ _ => s

/-- The item's XML data slot. -/
def QGraphicsItem.xmlData : QGraphicsItem → Option XmlAttributes
  | .mk _ d _ => d

/-- The member `QGraphicsItem::childItems()`. -/
def QGraphicsItem.childItems : QGraphicsItem → List QGraphicsItem
  | .mk _ _ cs => cs

/-- Whether the item's dynamic type is (derived from) class `T`. -/
def QGraphicsItem.isA (item : QGraphicsItem) : ItemType → Bool
  | .any => true
  | .subclass k => decide (k ∈ item.subclasses)

/-- The cast `dynamic_cast<T *>(p)`: `nullptr` for `nullptr` and for an item that is not a `T`. -/
def dynamic_cast (T : ItemType) (p : Option QGraphicsItem) : Option QGraphicsItem :=
  match p with
  | none => none
  | some item => if item.isA T then some item else none

/-- The `std::out_of_range` exceptions of the query engine, one per throw site. -/
inductive Failure where
  -- "Supplied item is nullptr." (itemMatchesSelector)
  | suppliedItemIsNullptr
  -- "Cannot build dom tree with nullptr item." (the constructor of SvgDomTree)
  | cannotBuildDomTree
  -- "Current element is nullptr." (find)
  | currentElementIsNullptr
  -- "Not found." (find)
  | notFound
  -- thrown by getXmlAttributes when the element has no XML data assigned
  | noXmlData
deriving DecidableEq

/-- Modelled from the spec: `getXmlAttributes` is declared in `svgmetadata.h` but its body is
not part of the sources. Its header comment reads "@throws std::out_of_range if element has no
XML data assigned (not even empty)", and the specification: "fails with `MetadataAbsent` if the
node was not produced by this core (no attributes ever attached)". -/
def getXmlAttributes (element : QGraphicsItem) : Except Failure XmlAttributes :=
  match element.xmlData with
  | none => .error .noXmlData
  | some attrs => .ok attrs

/-- Modelled from the spec: `getXmlAttributeOr` is declared `noexcept` in `svgmetadata.h` but
its body is not part of the sources. "never fails, returns `default` on any miss (including
`MetadataAbsent`)". -/
def getXmlAttributeOr (element : QGraphicsItem) (name defaultValue : QString) : QString :=
  match getXmlAttributes element with
  | .error _ => defaultValue
  | .ok attrs => attrs.value name defaultValue

/-- The function `itemMatchesSelector<T>(item, attr_name, attr_value)` (`svgdocument.h`,
152-169). -/
def itemMatchesSelector (item : Option QGraphicsItem) (attr_name attr_value : QString) :
    Except Failure Bool :=
  match item with
  | none => .error .suppliedItemIsNullptr
  | some it =>
    if attr_name.isEmpty then .ok true
    else
      match getXmlAttributes it with
      | .error e => .error e
      | .ok attrs =>
        if !attrs.contains attr_name then .ok false
        else .ok (attr_value.isEmpty || attrs.value attr_name "" == attr_value)

/-- The class `SvgDomTree<TT>`: the wrapped `TT *root`. The only constructor throws when the pointer it
would store is null and `root` is never reassigned, so a view always holds an item. -/
structure SvgDomTree (TT : ItemType) where
  root : QGraphicsItem

/-- The constructor `SvgDomTree<T>::SvgDomTree(QGraphicsItem *root)` (171-176): store
`dynamic_cast<T *>(root)`, throw if that is null. -/
def SvgDomTree.ctor (T : ItemType) (root : Option QGraphicsItem) :
    Except Failure (SvgDomTree T) :=
  match dynamic_cast T root with
  | none => .error .cannotBuildDomTree
  | some r => .ok ⟨r⟩

/-- The member `SvgDomTree<TT>::getElement()` (178-181): the wrapped pointer. -/
def SvgDomTree.getElement {TT : ItemType} (v : SvgDomTree TT) : Option QGraphicsItem :=
  some v.root

/-- The member `SvgDomTree<T>::getAttrValueOr(attr_name, default_value)` (183-187):
`getXmlAttributes(root)` followed by `attrs.value(attr_name, default_value)`. -/
def SvgDomTree.getAttrValueOr {T : ItemType} (v : SvgDomTree T)
    (attr_name default_value : QString) : Except Failure QString :=
  match getXmlAttributes v.root with
  | .error e => .error e
  | .ok attrs => .ok (attrs.value attr_name default_value)

/-! ## The template calls in the bodies of `find`, `findFromParentRaw` and `findAll` -/

/-- A parameter type of a function template declaration. -/
inductive ParamType where
  -- const QGraphicsItem *
  | constQGraphicsItemPtr
  -- const QString &
  | constQStringRef
  -- P * for a template parameter P (no declaration of svgdocument.h has such a parameter)
  | pointerToParam (name : String)

/-- Whether the template parameter occurs in the type, so that an argument of the call can
determine it. -/
def ParamType.mentions : ParamType → String → Bool
  | .pointerToParam p, name => p == name
  | _, _ => false

/-- The declaration of a function template: its template parameters (name, whether a default
template argument is declared) and its function parameters (type, whether a default argument
is declared). -/
structure FunctionTemplate where
  templateParams : List (String × Bool)
  params : List (ParamType × Bool)

/-- A call of a function template: the number of template arguments written at the call and
the number of arguments passed. -/
structure CallSite where
  templateArgs : Nat
  args : Nat

/-- Whether the call is well-formed against the declaration: it passes no more arguments than
there are parameters, every parameter left without an argument has a default argument, and
every template parameter that is not written at the call has a default template argument or
occurs in the type of a parameter that receives an argument (so that it is deduced). -/
def FunctionTemplate.accepts (f : FunctionTemplate) (c : CallSite) : Bool :=
  decide (c.args ≤ f.params.length) &&
  (f.params.drop c.args).all (fun p => p.2) &&
  decide (c.templateArgs ≤ f.templateParams.length) &&
  (f.templateParams.drop c.templateArgs).all
    (fun t => t.2 || (f.params.take c.args).any (fun p => p.1.mentions t.1))

/-- The declaration of `itemMatchesSelector` (152-156): `template<typename T> bool
itemMatchesSelector(const QGraphicsItem *item, const QString &attr_name, const QString
&attr_value)`. -/
def itemMatchesSelectorDecl : FunctionTemplate :=
  { templateParams := [("T", false)]
    params := [(.constQGraphicsItemPtr, false), (.constQStringRef, false),
               (.constQStringRef, false)] }

/-- The declaration of `findFromParentRaw` (128-132): `template<typename T> static T
*findFromParentRaw(const QGraphicsItem *parent, const QString &attr_name = QString(), const
QString &attr_value = QString())`. -/
def findFromParentRawDecl : FunctionTemplate :=
  { templateParams := [("T", false)]
    params := [(.constQGraphicsItemPtr, false), (.constQStringRef, true),
               (.constQStringRef, true)] }

/-- The declaration of `find` (90-91): `template<typename T = QGraphicsItem> SvgDomTree<T>
find(const QString &attr_name = QString(), const QString &attr_value = QString())`. -/
def findDecl : FunctionTemplate :=
  { templateParams := [("T", true)]
    params := [(.constQStringRef, true), (.constQStringRef, true)] }

/-- The declaration of `findAll` (111-113): `template<typename T = QGraphicsItem>
QList<SvgDomTree<T>> findAll(const QString &attr_name = QString(), const QString &attr_value
= QString())`. -/
def findAllDecl : FunctionTemplate :=
  { templateParams := [("T", true)]
    params := [(.constQStringRef, true), (.constQStringRef, true)] }

/-- Line 204, in `find`: `itemMatchesSelector<T>(child, attr_name, attr_value)`. -/
def callAtLine204 : CallSite := { templateArgs := 1, args := 3 }

/-- Line 209, in `find`: `findFromParentRaw<T>(_child, attr_name, attr_value)`. -/
def callAtLine209 : CallSite := { templateArgs := 1, args := 3 }

/-- Line 227, in `findAll`: `itemMatchesSelector<T>(child, attr_name, attr_value)`. -/
def callAtLine227 : CallSite := { templateArgs := 1, args := 3 }

/-- Line 231, in `findAll`: `SvgDomTree(_child).findAll(_child, attr_name, attr_value)`. -/
def callAtLine231 : CallSite := { templateArgs := 0, args := 3 }

/-- Line 248, in `findFromParentRaw`: `itemMatchesSelector(child, attr_name, attr_value)`. -/
def callAtLine248 : CallSite := { templateArgs := 0, args := 3 }

/-- Line 252, in `findFromParentRaw`: `findFromParentRaw(_child, attr_name, attr_value)`. -/
def callAtLine252 : CallSite := { templateArgs := 0, args := 3 }

/-- The function template calls in the body of `SvgDomTree<TT>::find<T>` (195-215). -/
def findBody : List (FunctionTemplate × CallSite) :=
  [(itemMatchesSelectorDecl, callAtLine204), (findFromParentRawDecl, callAtLine209)]

/-- The function template calls in the body of `SvgDomTree<TT>::findFromParentRaw<T>`
(236-258). -/
def findFromParentRawBody : List (FunctionTemplate × CallSite) :=
  [(itemMatchesSelectorDecl, callAtLine248), (findFromParentRawDecl, callAtLine252)]

/-- The function template calls in the body of `SvgDomTree<TT>::findAll<T>` (216-234). -/
def findAllBody : List (FunctionTemplate × CallSite) :=
  [(itemMatchesSelectorDecl, callAtLine227), (findAllDecl, callAtLine231)]

/-- Whether every function template call of a body is well-formed. -/
def bodyWellFormed (body : List (FunctionTemplate × CallSite)) : Bool :=
  body.all (fun fc => fc.1.accepts fc.2)

/-- Whether `find<T>` can be instantiated: its own body must be well-formed, and so must the
body of `findFromParentRaw<T>`, which line 209 instantiates. -/
def findInstantiable : Bool :=
  bodyWellFormed findBody && bodyWellFormed findFromParentRawBody

/-- Whether `findAll<T>` can be instantiated: its body must be well-formed. -/
def findAllInstantiable : Bool :=
  bodyWellFormed findAllBody

/-! ## Example items -/

/-- The item of the tree used in the examples: classes, XML attributes, children. -/
def item (classes : List Nat) (attrs : List (QString × QString))
    (children : List QGraphicsItem) : QGraphicsItem :=
  .mk classes (some ⟨attrs⟩) children

/-- An item that was not created by the parser: no XML data assigned. -/
def foreignItem (classes : List Nat) (children : List QGraphicsItem) : QGraphicsItem :=
  .mk classes none children

/-! ## The attribute and cascade resolver (`svghandler.h`, `svgspec.h`) -/

/-- The alias `using CssAttributes = QMap<QString, QString>;` (`svgmetadata.h`). -/
abbrev CssAttributes := QMap

/-- The raw attribute list of one start tag (`QXmlStreamAttributes`): (name, value) pairs in
document order. -/
abbrev QXmlStreamAttributes := List (QString × QString)

/-- The empty map. -/
def QMap.empty : QMap := ⟨[]⟩

/-- The write `map[key] = value`: keys are unique, a later write replaces the earlier entry. -/
def QMap.insert (m : QMap) (key value : QString) : QMap :=
  ⟨(key, value) :: m.entries.filter (fun p => p.1 != key)⟩

/-- The set `svgspec::presentation_attributes` (`svgspec.h`, 15-79), in source order. -/
def svgspec.presentation_attributes : List QString :=
  ["alignment-baseline", "baseline-shift", "clip", "clip-path", "clip-rule", "color",
   "color-interpolation", "color-interpolation-filters", "color-profile", "color-rendering",
   "cursor", "direction", "display", "dominant-baseline", "enable-background", "fill",
   "fill-opacity", "fill-rule", "filter", "flood-color", "flood-opacity", "font-family",
   "font-size", "font-size-adjust", "font-stretch", "font-style", "font-variant",
   "font-weight", "glyph-orientation-horizontal", "glyph-orientation-vertical",
   "image-rendering", "kerning", "letter-spacing", "lighting-color", "marker-end",
   "marker-mid", "marker-start", "mask", "opacity", "overflow", "pointer-events",
   "shape-rendering", "stop-color", "stop-opacity", "stroke", "stroke-dasharray",
   "stroke-dashoffset", "stroke-linecap", "stroke-linejoin", "stroke-miterlimit",
   "stroke-opacity", "stroke-width", "text-anchor", "text-decoration", "text-rendering",
   "transform", "transform-origin", "unicode-bidi", "vector-effect", "visibility",
   "word-spacing", "writing-mode"]

/-- The pieces of a character sequence between the occurrences of a separator. -/
def splitChars (sep : Char) : List Char → List (List Char)
  | [] => [[]]
  | c :: cs =>
    if c = sep then [] :: splitChars sep cs
    else
      match splitChars sep cs with
      | [] => [[c]]
      | piece :: pieces => (c :: piece) :: pieces

/-- A character sequence without its leading and trailing whitespace. -/
def trimChars (cs : List Char) : List Char :=
  ((cs.dropWhile Char.isWhitespace).reverse.dropWhile Char.isWhitespace).reverse

/-- Modelled from the spec: one `name:value` declaration of a `style` string
("whitespace-trimmed on both sides; empty declarations skipped"); the body of the style parser
is not part of the sources. The name ends at the first colon; a piece without a colon or
without a name is a malformed declaration, which "is skipped" (4.3). -/
def parseDeclaration (piece : List Char) : Option (QString × QString) :=
  let name := trimChars (piece.takeWhile (fun c => c != ':'))
  match piece.dropWhile (fun c => c != ':') with
  | [] => none
  | _ :: value => if name.isEmpty then none else some (String.mk name, String.mk (trimChars value))

/-- Modelled from the spec: the `style` attribute parsed "as semicolon-separated `name:value`
declarations" into a map (last write wins); the body of the style parser is not part of the
sources. -/
def parseStyle (style : QString) : CssAttributes :=
  (splitChars ';' style.toList).foldl
    (fun css piece =>
      match parseDeclaration piece with
      | some (name, value) => css.insert name value
      | none => css)
    QMap.empty

/-- Modelled from the spec: `SvgHandler::mergeCSSAttributes(css_attributes, attr_name,
xml_attributes)` is declared in `svghandler.h` (86-88) but its body is not part of the
sources. "if `xmlAttributes` contains that name and `cssAttributes` does not yet contain it,
copy the value across." -/
def mergeCSSAttributes (css_attributes : CssAttributes) (attr_name : QString)
    (xml_attributes : XmlAttributes) : CssAttributes :=
  if xml_attributes.contains attr_name && !css_attributes.contains attr_name then
    css_attributes.insert attr_name (xml_attributes.value attr_name "")
  else css_attributes

/-- The two maps attached to a node (specification, 3): `ResolvedAttributes`. -/
structure ResolvedAttributes where
  xmlAttributes : XmlAttributes
  cssAttributes : CssAttributes

/-- Modelled from the spec: the first step of `resolve`, "copies every raw pair into
`xmlAttributes` verbatim" (last write wins on duplicates); `SvgHandler::parseXmlAttributes`
is declared in `svghandler.h` (83-84) but its body is not part of the sources. -/
def copyRawAttributes (attributes : QXmlStreamAttributes) : XmlAttributes :=
  attributes.foldl (fun xml p => xml.insert p.1 p.2) QMap.empty

/-- Modelled from the spec: the second step of `resolve`, "if a `style` attribute is present,
parses it ... into `cssAttributes`"; without a `style` attribute the map starts empty. -/
def styleDeclarations (xml_attributes : XmlAttributes) : CssAttributes :=
  if xml_attributes.contains "style" then parseStyle (xml_attributes.value "style" "")
  else QMap.empty

/-- Modelled from the spec: the contract `resolve(rawAttributes) -> ResolvedAttributes` (4.1),
which the specification draws from `SvgHandler::parseXmlAttributes` and
`SvgHandler::mergeCSSAttributes` (`svghandler.h`, 83-88), whose bodies are not part of the
sources: copy the raw pairs, parse `style`, then merge every name of the presentation
allow-list. -/
def resolve (rawAttributes : QXmlStreamAttributes) : ResolvedAttributes :=
  let xml := copyRawAttributes rawAttributes
  { xmlAttributes := xml
    cssAttributes :=
      svgspec.presentation_attributes.foldl
        (fun css name => mergeCSSAttributes css name xml) (styleDeclarations xml) }

/-! ## The text of a `style` attribute, written from the specification -/

/-- One piece of a `style` string between two semicolons, as the specification reads it:
an empty or malformed declaration, which is skipped, or `name:value` with optional whitespace
around the name and around the value. -/
inductive StylePiece where
  -- a piece without a colon
  | skipped (text : List Char)
  -- lead, name, gap, a colon, gap2, value, trail
  | declaration (lead name gap gap2 value trail : List Char)

/-- The characters of a piece. -/
def StylePiece.chars : StylePiece → List Char
  | .skipped text => text
  | .declaration lead name gap gap2 value trail =>
    lead ++ name ++ gap ++ ':' :: (gap2 ++ value ++ trail)

/-- The (name, value) pair a piece declares. -/
def StylePiece.entry : StylePiece → Option (QString × QString)
  | .skipped _ => none
  | .declaration _ name _ _ value _ => some (String.mk name, String.mk value)

/-- Whitespace only. -/
def isBlank (cs : List Char) : Bool :=
  cs.all Char.isWhitespace

/-- Neither the first nor the last character is whitespace. -/
def isTrimmed (cs : List Char) : Bool :=
  cs.head?.all (fun c => !c.isWhitespace) && cs.getLast?.all (fun c => !c.isWhitespace)

/-- A piece is well-formed when it contains no semicolon and, for a declaration, the name is
not empty and has no colon, name and value carry no outer whitespace of their own, and the
four paddings are whitespace. A skipped piece has no colon. -/
def StylePiece.wellFormed : StylePiece → Bool
  | .skipped text => !text.contains ':' && !text.contains ';'
  | .declaration lead name gap gap2 value trail =>
    isBlank lead && isBlank gap && isBlank gap2 && isBlank trail &&
    !name.isEmpty && isTrimmed name && !name.contains ':' && !name.contains ';' &&
    isTrimmed value && !value.contains ';'

/-- The text of a `style` attribute: the pieces separated by semicolons. -/
def styleText : List StylePiece → List Char
  | [] => []
  | [p] => p.chars
  | p :: q :: rest => p.chars ++ ';' :: styleText (q :: rest)

/-- The declarations of a `style` text, in textual order. -/
def declaredIn (pieces : List StylePiece) : List (QString × QString) :=
  pieces.filterMap StylePiece.entry

/-- The value a list of (name, value) pairs gives a name: that of the last pair with the
name. -/
def lastValue (pairs : List (QString × QString)) (name : QString) : Option QString :=
  pairs.reverse.lookup name

/-- The pieces of the text ` stroke : black ;; fill:red `: a padded declaration, an empty
declaration and a declaration with trailing whitespace. -/
def exampleStylePieces : List StylePiece :=
  [.declaration [' '] "stroke".toList [' '] [' '] "black".toList [' '],
   .skipped [],
   .declaration [' '] "fill".toList [] [] "red".toList [' ']]

/-! ## Lemmas and theorems -/

theorem ctor_of_isA (T : ItemType) (n : QGraphicsItem) (h : n.isA T = true) :
    SvgDomTree.ctor T (some n) = .ok ⟨n⟩ := by
  simp [SvgDomTree.ctor, dynamic_cast, h]

theorem ctor_of_not_isA (T : ItemType) (n : QGraphicsItem) (h : n.isA T = false) :
    SvgDomTree.ctor T (some n) = .error .cannotBuildDomTree := by
  simp [SvgDomTree.ctor, dynamic_cast, h]

/-- C7: on a non-null item, `itemMatchesSelector` is true whenever `attrName` is empty,
whatever the value and whether or not the item has metadata; for a non-empty `attrName` and
an item with attached `xmlAttributes` it is true if and only if the map stores a value under
`attrName` and either `attrValue` is empty or the stored value is exactly `attrValue`. -/
theorem itemMatchesSelector_spec (it : QGraphicsItem) (attrName attrValue : QString) :
    (attrName = "" → itemMatchesSelector (some it) attrName attrValue = .ok true) ∧
    (attrName ≠ "" → ∀ attrs, it.xmlData = some attrs →
      ∃ b, itemMatchesSelector (some it) attrName attrValue = .ok b ∧
        (b = true ↔ ∃ stored, attrs.entries.lookup attrName = some stored ∧
          (attrValue = "" ∨ stored = attrValue))) := by
  refine ⟨fun h => ?_, fun h attrs hx => ?_⟩
  · subst h; rfl
  · have hne : attrName.isEmpty = false := by
      cases hb : attrName.isEmpty with
      | false => rfl
      | true => exact absurd ((String.isEmpty_iff attrName).mp hb) h
    simp only [itemMatchesSelector, hne, getXmlAttributes, hx, QMap.contains, QMap.value]
    cases hl : attrs.entries.lookup attrName with
    | none => exact ⟨false, by simp, by simp⟩
    | some stored =>
      refine ⟨attrValue.isEmpty || stored == attrValue, by simp, ?_⟩
      simp [String.isEmpty_iff]

/-- C7 at concrete items: an empty name matches an item without metadata; `id="Abc"` is
matched by the value `Abc` and by the empty value, not by `abc` and not under another name. -/
theorem itemMatchesSelector_spec_witness :
    itemMatchesSelector (some (foreignItem [] [])) "" "anything" = .ok true ∧
    itemMatchesSelector (some (item [] [("id", "Abc")] [])) "id" "Abc" = .ok true ∧
    itemMatchesSelector (some (item [] [("id", "Abc")] [])) "id" "" = .ok true ∧
    itemMatchesSelector (some (item [] [("id", "Abc")] [])) "id" "abc" = .ok false ∧
    itemMatchesSelector (some (item [] [("id", "Abc")] [])) "class" "" = .ok false :=
  ⟨(itemMatchesSelector_spec (foreignItem [] []) "" "anything").1 rfl,
   by rfl, by rfl, by rfl, by rfl⟩

/-- C8 (counterexample): the constructor does not tell an absent reference from a node that
lacks the capability: both throw the same exception. -/
theorem ctor_same_failure_for_null_and_mismatch :
    SvgDomTree.ctor (.subclass 1) none = .error .cannotBuildDomTree ∧
    SvgDomTree.ctor (.subclass 1) (some (item [2] [] [])) = .error .cannotBuildDomTree ∧
    SvgDomTree.ctor (.subclass 1) none
      = SvgDomTree.ctor (.subclass 1) (some (item [2] [] [])) :=
  ⟨by rfl, by rfl, by rfl⟩

/-- C8 (amended): constructing a view succeeds if and only if the node reference is present
and the node has capability `T`; in every other case, absent reference or missing capability
alike, it fails with the one failure of the constructor; whenever it succeeds, `getElement`
returns the node it was given, which is therefore present. -/
theorem ctor_spec (T : ItemType) (p : Option QGraphicsItem) :
    ((∃ v, SvgDomTree.ctor T p = .ok v) ↔ ∃ n, p = some n ∧ n.isA T = true) ∧
    ((¬ ∃ n, p = some n ∧ n.isA T = true) →
      SvgDomTree.ctor T p = .error .cannotBuildDomTree) ∧
    (∀ v, SvgDomTree.ctor T p = .ok v → v.getElement = p ∧ p ≠ none) := by
  cases p with
  | none =>
    refine ⟨⟨?_, ?_⟩, fun _ => rfl, ?_⟩
    · rintro ⟨v, hv⟩; simp [SvgDomTree.ctor, dynamic_cast] at hv
    · rintro ⟨n, hn, _⟩; cases hn
    · intro v hv; simp [SvgDomTree.ctor, dynamic_cast] at hv
  | some n =>
    cases hT : n.isA T with
    | true =>
      refine ⟨⟨fun _ => ⟨n, rfl, hT⟩, fun _ => ⟨⟨n⟩, ctor_of_isA T n hT⟩⟩, ?_, ?_⟩
      · intro h; exact absurd ⟨n, rfl, hT⟩ h
      · intro v hv
        rw [ctor_of_isA T n hT] at hv
        simp only [Except.ok.injEq] at hv
        subst hv
        exact ⟨rfl, by simp⟩
    | false =>
      refine ⟨⟨?_, ?_⟩, fun _ => ctor_of_not_isA T n hT, ?_⟩
      · rintro ⟨v, hv⟩; rw [ctor_of_not_isA T n hT] at hv; cases hv
      · rintro ⟨m, hm, hmT⟩
        simp only [Option.some.injEq] at hm
        subst hm; rw [hT] at hmT; cases hmT
      · intro v hv; rw [ctor_of_not_isA T n hT] at hv; cases hv

/-- The amended C8 at concrete references: a shape wrapped as a shape view is returned by
`getElement`; wrapping it as a group view, or wrapping no node, fails. -/
theorem ctor_spec_witness :
    (∃ v, SvgDomTree.ctor (.subclass 2) (some (item [2] [] [])) = .ok v ∧
      v.getElement = some (item [2] [] [])) ∧
    SvgDomTree.ctor (.subclass 1) (some (item [2] [] [])) = .error .cannotBuildDomTree ∧
    SvgDomTree.ctor (.subclass 1) none = .error .cannotBuildDomTree :=
  ⟨⟨⟨item [2] [] []⟩, rfl,
      ((ctor_spec (.subclass 2) (some (item [2] [] []))).2.2 ⟨item [2] [] []⟩ rfl).1⟩,
   (ctor_spec (.subclass 1) (some (item [2] [] []))).2.1
      (by rintro ⟨n, hn, hT⟩; cases hn; cases hT),
   (ctor_spec (.subclass 1) none).2.1 (by rintro ⟨n, hn, _⟩; cases hn)⟩

/-- C9 (the code at the failing input): on a view over an item without XML data,
`getAttrValueOr("id", "default")` does not return `default`: the failure of
`getXmlAttributes` propagates. The free function `getXmlAttributeOr` returns `default` on the
same item. -/
theorem getAttrValueOr_throws_without_metadata :
    SvgDomTree.getAttrValueOr (⟨foreignItem [] []⟩ : SvgDomTree .any) "id" "default"
      = .error .noXmlData ∧
    getXmlAttributeOr (foreignItem [] []) "id" "default" = "default" :=
  ⟨by rfl, by rfl⟩

/-- C10: on a view over a node with attached metadata, `getAttrValueOr(name, default)`
returns the value stored under `name` in the node's `xmlAttributes` when `name` is a key of
that map (and `name` is a key exactly when a value is stored under it), and returns `default`
unchanged when `name` is not a key. The result is the only output of the call. -/
theorem getAttrValueOr_attached {T : ItemType} (v : SvgDomTree T) (attrs : XmlAttributes)
    (h : v.root.xmlData = some attrs) (name default_value : QString) :
    (∀ stored, attrs.entries.lookup name = some stored →
      v.getAttrValueOr name default_value = .ok stored) ∧
    (name ∈ attrs.entries.map Prod.fst → ∃ stored, (name, stored) ∈ attrs.entries ∧
      v.getAttrValueOr name default_value = .ok stored) ∧
    (name ∉ attrs.entries.map Prod.fst →
      v.getAttrValueOr name default_value = .ok default_value) := by
  refine ⟨fun stored hs => ?_, fun hk => ?_, fun hk => ?_⟩
  · simp [SvgDomTree.getAttrValueOr, getXmlAttributes, h, QMap.value, hs]
  · cases hl : attrs.entries.lookup name with
    | none =>
      rw [List.lookup_eq_none_iff] at hl
      obtain ⟨p, hp, hpn⟩ := List.mem_map.mp hk
      have := hl p hp
      simp [hpn] at this
    | some stored =>
      refine ⟨stored, ?_, ?_⟩
      · obtain ⟨l₁, l₂, hl₁, _⟩ := List.lookup_eq_some_iff.mp hl
        rw [hl₁]; simp
      · simp [SvgDomTree.getAttrValueOr, getXmlAttributes, h, QMap.value, hl]
  · have hl : attrs.entries.lookup name = none := by
      rw [List.lookup_eq_none_iff]
      intro p hp
      have hne : name ≠ p.1 := fun he => hk (List.mem_map.mpr ⟨p, hp, he.symm⟩)
      simpa using hne
    simp [SvgDomTree.getAttrValueOr, getXmlAttributes, h, QMap.value, hl]

/-- C10 at a concrete node with `id="a"`: the lookup of `id` returns `a`, and the lookup of a
missing name with default `default` returns `default`. -/
theorem getAttrValueOr_attached_witness :
    (item [2] [("id", "a")] []).xmlData = some ⟨[("id", "a")]⟩ ∧
    SvgDomTree.getAttrValueOr (⟨item [2] [("id", "a")] []⟩ : SvgDomTree .any) "id" "default"
      = .ok "a" ∧
    SvgDomTree.getAttrValueOr (⟨item [2] [("id", "a")] []⟩ : SvgDomTree .any)
        "missing" "default"
      = .ok "default" :=
  ⟨rfl,
   (getAttrValueOr_attached (⟨item [2] [("id", "a")] []⟩ : SvgDomTree .any) ⟨[("id", "a")]⟩
      rfl "id" "default").1 "a" (by decide),
   (getAttrValueOr_attached (⟨item [2] [("id", "a")] []⟩ : SvgDomTree .any) ⟨[("id", "a")]⟩
      rfl "missing" "default").2.2 (by decide)⟩

theorem lookup_filter_ne (l : List (QString × QString)) (k key : QString) (h : k ≠ key) :
    (l.filter (fun p => p.1 != key)).lookup k = l.lookup k := by
  induction l with
  | nil => rfl
  | cons p rest ih =>
    obtain ⟨pk, pv⟩ := p
    by_cases hp : pk = key
    · subst hp
      have hk : (k == pk) = false := by simpa using h
      simp [List.filter_cons, List.lookup_cons, hk, ih]
    · have hne : (pk != key) = true := by simpa using hp
      simp only [List.filter_cons, hne, if_true, List.lookup_cons, ih]

theorem QMap.lookup_insert_self (m : QMap) (key value : QString) :
    (m.insert key value).entries.lookup key = some value := by
  simp [QMap.insert, List.lookup_cons]

theorem QMap.lookup_insert_ne (m : QMap) (key value k : QString) (h : k ≠ key) :
    (m.insert key value).entries.lookup k = m.entries.lookup k := by
  have hk : (k == key) = false := by simpa using h
  simp only [QMap.insert, List.lookup_cons, hk]
  exact lookup_filter_ne m.entries k key h

/-- The last value written under a key, over the raw pairs in document order. -/
theorem lookup_foldl_insert (raw : QXmlStreamAttributes) (m : QMap) (k : QString) :
    ((raw.foldl (fun xml p => xml.insert p.1 p.2) m).entries.lookup k)
      = (raw.reverse.lookup k).or (m.entries.lookup k) := by
  induction raw generalizing m with
  | nil => simp
  | cons p rest ih =>
    obtain ⟨pk, pv⟩ := p
    rw [List.foldl_cons, ih, List.reverse_cons, List.lookup_append]
    by_cases hk : k = pk
    · subst hk
      simp [QMap.lookup_insert_self, List.lookup_cons]
      cases rest.reverse.lookup k <;> simp
    · have hb : (k == pk) = false := by simpa using hk
      simp [QMap.lookup_insert_ne _ _ _ _ hk, List.lookup_cons, hb]

theorem copyRawAttributes_lookup (raw : QXmlStreamAttributes) (k : QString) :
    (copyRawAttributes raw).entries.lookup k = raw.reverse.lookup k := by
  simp [copyRawAttributes, lookup_foldl_insert, QMap.empty]

theorem mergeCSSAttributes_lookup (css : CssAttributes) (name : QString) (xml : XmlAttributes)
    (k : QString) :
    (mergeCSSAttributes css name xml).entries.lookup k
      = (css.entries.lookup k).or (if k = name then xml.entries.lookup k else none) := by
  unfold mergeCSSAttributes QMap.contains QMap.value
  by_cases hk : k = name
  · subst hk
    cases hx : xml.entries.lookup k <;> cases hc : css.entries.lookup k <;>
      simp [QMap.lookup_insert_self, hx, hc]
  · cases hx : xml.entries.lookup name <;> cases hc : css.entries.lookup name <;>
      simp [hk, QMap.lookup_insert_ne _ _ _ _ hk, hx, hc]

/-- After the merge of a list of names, a key holds the value it had before, else the XML value
when the key is one of the names. -/
theorem lookup_foldl_merge (names : List QString) (css : CssAttributes) (xml : XmlAttributes)
    (k : QString) :
    ((names.foldl (fun c name => mergeCSSAttributes c name xml) css).entries.lookup k)
      = (css.entries.lookup k).or (if k ∈ names then xml.entries.lookup k else none) := by
  induction names generalizing css with
  | nil => simp
  | cons n rest ih =>
    rw [List.foldl_cons, ih, mergeCSSAttributes_lookup]
    by_cases hn : k = n
    · subst hn
      cases css.entries.lookup k <;> cases xml.entries.lookup k <;> simp
    · by_cases hr : k ∈ rest
      · simp [hn, hr]
      · simp [hn, hr]

theorem styleDeclarations_of_style (raw : QXmlStreamAttributes) (s : QString)
    (h : raw.reverse.lookup "style" = some s) :
    styleDeclarations (copyRawAttributes raw) = parseStyle s := by
  simp [styleDeclarations, QMap.contains, QMap.value, copyRawAttributes_lookup, h]

theorem styleDeclarations_of_no_style (raw : QXmlStreamAttributes)
    (h : raw.reverse.lookup "style" = none) :
    styleDeclarations (copyRawAttributes raw) = QMap.empty := by
  simp only [styleDeclarations, QMap.contains, copyRawAttributes_lookup, h, Option.isSome_none]
  rfl

/-- The resolved style value of a key: the declaration of `style` when there is one, else the
XML attribute when the key is on the presentation allow-list. -/
theorem resolve_cssAttributes_lookup (raw : QXmlStreamAttributes) (k : QString) :
    (resolve raw).cssAttributes.entries.lookup k
      = ((styleDeclarations (copyRawAttributes raw)).entries.lookup k).or
          (if k ∈ svgspec.presentation_attributes then raw.reverse.lookup k else none) := by
  simp only [resolve, lookup_foldl_merge, copyRawAttributes_lookup]

/-- The cascade in terms of the parsed `style` value: an entry of the parsed map wins, and an
XML attribute of an allow-listed name is copied when the parsed map has no entry for it. -/
theorem resolve_cascade_of_parsed (raw : QXmlStreamAttributes) (a : QString)
    (ha : a ∈ svgspec.presentation_attributes) :
    (∀ s v, raw.reverse.lookup "style" = some s → (parseStyle s).entries.lookup a = some v →
      (resolve raw).cssAttributes.entries.lookup a = some v) ∧
    (∀ v, raw.reverse.lookup a = some v →
      (∀ s, raw.reverse.lookup "style" = some s → (parseStyle s).entries.lookup a = none) →
      (resolve raw).cssAttributes.entries.lookup a = some v ∧
        (resolve raw).xmlAttributes.entries.lookup a = some v) := by
  refine ⟨fun s v hs hv => ?_, fun v hv hno => ⟨?_, ?_⟩⟩
  · rw [resolve_cssAttributes_lookup, styleDeclarations_of_style raw s hs, hv]
    rfl
  · rw [resolve_cssAttributes_lookup]
    cases hs : raw.reverse.lookup "style" with
    | none =>
      rw [styleDeclarations_of_no_style raw hs]
      simp [QMap.empty, ha, hv]
    | some s =>
      rw [styleDeclarations_of_style raw s hs, hno s hs]
      simp [ha, hv]
  · simp only [resolve]
    rw [copyRawAttributes_lookup, hv]

theorem splitChars_of_not_mem (sep : Char) (xs : List Char) (h : sep ∉ xs) :
    splitChars sep xs = [xs] := by
  induction xs with
  | nil => rfl
  | cons c cs ih =>
    have hc : c ≠ sep := fun e => h (e ▸ List.mem_cons_self _ _)
    have hcs : sep ∉ cs := fun m => h (List.mem_cons_of_mem _ m)
    simp [splitChars, hc, ih hcs]

theorem splitChars_append_sep (sep : Char) (xs ys : List Char) (h : sep ∉ xs) :
    splitChars sep (xs ++ sep :: ys) = xs :: splitChars sep ys := by
  induction xs with
  | nil => simp [splitChars]
  | cons c cs ih =>
    have hc : c ≠ sep := fun e => h (e ▸ List.mem_cons_self _ _)
    have hcs : sep ∉ cs := fun m => h (List.mem_cons_of_mem _ m)
    simp [splitChars, hc, ih hcs]

theorem dropWhile_blank_append (a xs : List Char) (h : isBlank a = true) :
    (a ++ xs).dropWhile Char.isWhitespace = xs.dropWhile Char.isWhitespace := by
  induction a with
  | nil => rfl
  | cons c cs ih =>
    simp only [isBlank, List.all_cons, Bool.and_eq_true] at h
    simp only [List.cons_append, List.dropWhile_cons, h.1, if_true]
    exact ih (by simpa [isBlank] using h.2)

theorem dropWhile_of_head (xs : List Char)
    (h : ∀ c, xs.head? = some c → c.isWhitespace = false) :
    xs.dropWhile Char.isWhitespace = xs := by
  cases xs with
  | nil => rfl
  | cons c cs => simp [List.dropWhile_cons, h c rfl]

theorem isBlank_reverse (a : List Char) (h : isBlank a = true) : isBlank a.reverse = true := by
  simp only [isBlank, List.all_eq_true] at *
  intro c hc
  exact h c (List.mem_reverse.mp hc)

/-- Trimming removes whitespace padding and nothing else. -/
theorem trimChars_padded (a core b : List Char) (ha : isBlank a = true)
    (hb : isBlank b = true) (hcore : isTrimmed core = true) :
    trimChars (a ++ core ++ b) = core := by
  simp only [isTrimmed, Bool.and_eq_true] at hcore
  have hhead : ∀ c, core.head? = some c → c.isWhitespace = false := by
    intro c hc; have := hcore.1; rw [hc] at this; simpa using this
  have hlast : ∀ c, core.reverse.head? = some c → c.isWhitespace = false := by
    intro c hc
    rw [List.head?_reverse] at hc
    have := hcore.2; rw [hc] at this; simpa using this
  unfold trimChars
  rw [List.append_assoc, dropWhile_blank_append a _ ha]
  cases core with
  | nil =>
    have hbn : b.dropWhile Char.isWhitespace = [] := by
      have := dropWhile_blank_append b [] hb
      simpa using this
    simp [hbn]
  | cons c cs =>
    have h1 : ((c :: cs) ++ b).dropWhile Char.isWhitespace = (c :: cs) ++ b := by
      simp [List.dropWhile_cons, hhead c rfl]
    rw [h1, List.reverse_append, dropWhile_blank_append _ _ (isBlank_reverse b hb),
      dropWhile_of_head _ hlast, List.reverse_reverse]

theorem not_mem_of_isBlank (a : List Char) (h : isBlank a = true) (c : Char)
    (hc : c.isWhitespace = false) : c ∉ a := by
  intro hm
  simp only [isBlank, List.all_eq_true] at h
  rw [h c hm] at hc
  cases hc

theorem takeWhile_before_colon (xs ys : List Char) (h : ':' ∉ xs) :
    (xs ++ ':' :: ys).takeWhile (fun c => c != ':') = xs := by
  induction xs with
  | nil => simp [List.takeWhile_cons]
  | cons c cs ih =>
    have hc : c ≠ ':' := fun e => h (e ▸ List.mem_cons_self _ _)
    have hcs : ':' ∉ cs := fun m => h (List.mem_cons_of_mem _ m)
    simp [List.takeWhile_cons, hc, ih hcs]

theorem dropWhile_before_colon (xs ys : List Char) (h : ':' ∉ xs) :
    (xs ++ ':' :: ys).dropWhile (fun c => c != ':') = ':' :: ys := by
  induction xs with
  | nil => simp [List.dropWhile_cons]
  | cons c cs ih =>
    have hc : c ≠ ':' := fun e => h (e ▸ List.mem_cons_self _ _)
    have hcs : ':' ∉ cs := fun m => h (List.mem_cons_of_mem _ m)
    simp [List.dropWhile_cons, hc, ih hcs]

theorem dropWhile_without_colon (xs : List Char) (h : ':' ∉ xs) :
    xs.dropWhile (fun c => c != ':') = [] := by
  induction xs with
  | nil => rfl
  | cons c cs ih =>
    have hc : c ≠ ':' := fun e => h (e ▸ List.mem_cons_self _ _)
    have hcs : ':' ∉ cs := fun m => h (List.mem_cons_of_mem _ m)
    simp [List.dropWhile_cons, hc, ih hcs]

/-- A well-formed piece contains no semicolon. -/
theorem StylePiece.semicolon_not_mem (p : StylePiece) (h : p.wellFormed = true) :
    ';' ∉ p.chars := by
  cases p with
  | skipped text =>
    simp only [StylePiece.wellFormed, Bool.and_eq_true, Bool.not_eq_true',
      List.contains_eq_any_beq, List.any_eq_false] at h
    intro hm
    have := h.2 _ hm
    simp at this
  | declaration lead name gap gap2 value trail =>
    simp only [StylePiece.wellFormed, Bool.and_eq_true, Bool.not_eq_true',
      List.contains_eq_any_beq, List.any_eq_false] at h
    obtain ⟨⟨⟨⟨⟨⟨⟨⟨⟨hl, hg⟩, hg2⟩, ht⟩, _⟩, _⟩, _⟩, hn⟩, _⟩, hv⟩ := h
    have hsemi : (';' : Char).isWhitespace = false := by decide
    have h1 := not_mem_of_isBlank lead hl ';' hsemi
    have h2 := not_mem_of_isBlank gap hg ';' hsemi
    have h3 := not_mem_of_isBlank gap2 hg2 ';' hsemi
    have h4 := not_mem_of_isBlank trail ht ';' hsemi
    have h5 : ';' ∉ name := fun hm => by have := hn _ hm; simp at this
    have h6 : ';' ∉ value := fun hm => by have := hv _ hm; simp at this
    simp only [StylePiece.chars, List.mem_append, List.mem_cons, not_or]
    exact ⟨⟨⟨h1, h5⟩, h2⟩, by decide, ⟨h3, h6⟩, h4⟩

/-- The declaration parser reads a well-formed piece as the pair it declares. -/
theorem parseDeclaration_chars (p : StylePiece) (h : p.wellFormed = true) :
    parseDeclaration p.chars = p.entry := by
  cases p with
  | skipped text =>
    simp only [StylePiece.wellFormed, Bool.and_eq_true, Bool.not_eq_true',
      List.contains_eq_any_beq, List.any_eq_false] at h
    have hc : ':' ∉ text := fun hm => by have := h.1 _ hm; simp at this
    simp [parseDeclaration, StylePiece.chars, StylePiece.entry, dropWhile_without_colon text hc]
  | declaration lead name gap gap2 value trail =>
    simp only [StylePiece.wellFormed, Bool.and_eq_true, Bool.not_eq_true',
      List.contains_eq_any_beq, List.any_eq_false] at h
    obtain ⟨⟨⟨⟨⟨⟨⟨⟨⟨hl, hg⟩, hg2⟩, ht⟩, hne⟩, htn⟩, hn⟩, _⟩, htv⟩, _⟩ := h
    have hcolon : (':' : Char).isWhitespace = false := by decide
    have h1 := not_mem_of_isBlank lead hl ':' hcolon
    have h2 := not_mem_of_isBlank gap hg ':' hcolon
    have h5 : ':' ∉ name := fun hm => by have := hn _ hm; simp at this
    have hpre : ':' ∉ lead ++ name ++ gap := by
      simp only [List.mem_append, not_or]; exact ⟨⟨h1, h5⟩, h2⟩
    have hname : trimChars (lead ++ name ++ gap) = name := trimChars_padded lead name gap hl hg htn
    have hvalue : trimChars (gap2 ++ value ++ trail) = value :=
      trimChars_padded gap2 value trail hg2 ht htv
    simp only [parseDeclaration, StylePiece.chars, StylePiece.entry,
      takeWhile_before_colon _ _ hpre, dropWhile_before_colon _ _ hpre, hname, hvalue, hne]
    rfl

theorem splitChars_styleText (pieces : List StylePiece)
    (h : ∀ p ∈ pieces, p.wellFormed = true) (hne : pieces ≠ []) :
    splitChars ';' (styleText pieces) = pieces.map StylePiece.chars := by
  induction pieces with
  | nil => exact absurd rfl hne
  | cons p rest ih =>
    have hp := StylePiece.semicolon_not_mem p (h p (List.mem_cons_self _ _))
    cases rest with
    | nil => simp [styleText, splitChars_of_not_mem _ _ hp]
    | cons q rest2 =>
      rw [styleText, splitChars_append_sep _ _ _ hp,
        ih (fun x hx => h x (List.mem_cons_of_mem _ hx)) (by simp)]
      rfl

theorem foldl_parse_pieces (pieces : List StylePiece) (h : ∀ p ∈ pieces, p.wellFormed = true)
    (m : CssAttributes) :
    (pieces.map StylePiece.chars).foldl
        (fun css piece =>
          match parseDeclaration piece with
          | some (name, value) => css.insert name value
          | none => css) m
      = (declaredIn pieces).foldl (fun css p => css.insert p.1 p.2) m := by
  induction pieces generalizing m with
  | nil => rfl
  | cons p rest ih =>
    have hp := parseDeclaration_chars p (h p (List.mem_cons_self _ _))
    have hrest := fun m => ih (fun x hx => h x (List.mem_cons_of_mem _ hx)) m
    simp only [List.map_cons, List.foldl_cons, hp, declaredIn, List.filterMap_cons]
    cases he : p.entry with
    | none => simpa [declaredIn] using hrest m
    | some e =>
      obtain ⟨n, v⟩ := e
      simpa [declaredIn] using hrest (m.insert n v)

/-- The style parser on a text of well-formed pieces: every name holds the value of its last
declaration, and no other name is present. -/
theorem parseStyle_styleText (pieces : List StylePiece)
    (h : ∀ p ∈ pieces, p.wellFormed = true) (k : QString) :
    (parseStyle (String.mk (styleText pieces))).entries.lookup k
      = lastValue (declaredIn pieces) k := by
  by_cases hne : pieces = []
  · subst hne
    rfl
  · have htext : (String.mk (styleText pieces)).toList = styleText pieces := rfl
    rw [parseStyle, htext, splitChars_styleText pieces h hne, foldl_parse_pieces pieces h,
      lookup_foldl_insert]
    simp [lastValue, QMap.empty]

/-- C11: cascade resolution, on the resolver modelled from the specification. For every raw
attribute list and every name `a` of the presentation allow-list: when the `style` attribute
is a text of semicolon-separated pieces (declarations `name:value` with optional whitespace
padding, empty or colon-free pieces) and declares `a`, the resolved `cssAttributes[a]` is the
value of the last declaration of `a` in that text, whatever XML attribute of that name is
present; when `a` is present as an XML attribute and `style` does not declare `a` or is
absent, `cssAttributes[a]` is the XML attribute's value, the one stored in
`xmlAttributes`. -/
theorem resolve_cascade (raw : QXmlStreamAttributes) (a : QString)
    (ha : a ∈ svgspec.presentation_attributes) :
    (∀ pieces, (∀ p ∈ pieces, p.wellFormed = true) →
      lastValue raw "style" = some (String.mk (styleText pieces)) →
      (∀ v, lastValue (declaredIn pieces) a = some v →
        (resolve raw).cssAttributes.entries.lookup a = some v) ∧
      (∀ v, lastValue (declaredIn pieces) a = none → lastValue raw a = some v →
        (resolve raw).cssAttributes.entries.lookup a = some v ∧
          (resolve raw).xmlAttributes.entries.lookup a = some v)) ∧
    (lastValue raw "style" = none → ∀ v, lastValue raw a = some v →
      (resolve raw).cssAttributes.entries.lookup a = some v ∧
        (resolve raw).xmlAttributes.entries.lookup a = some v) := by
  have key := resolve_cascade_of_parsed raw a ha
  refine ⟨fun pieces hwf hstyle => ⟨fun v hv => ?_, fun v hno hv => ?_⟩, fun hstyle v hv => ?_⟩
  · exact key.1 _ v hstyle (by rw [parseStyle_styleText pieces hwf]; exact hv)
  · refine key.2 v hv (fun s hs => ?_)
    have hs2 : s = String.mk (styleText pieces) := by
      have h0 : raw.reverse.lookup "style" = some (String.mk (styleText pieces)) := hstyle
      rw [h0] at hs; exact (Option.some.inj hs).symm
    rw [hs2, parseStyle_styleText pieces hwf]; exact hno
  · refine key.2 v hv (fun s hs => ?_)
    have h0 : raw.reverse.lookup "style" = none := hstyle
    rw [h0] at hs; cases hs

/-- The cascade on a start tag with `style=" stroke : black ;; fill:red "`, `fill="blue"` and
`stroke="none"`: `fill` is on the allow-list and resolves to `red`, the value declared last in
the style text; on a start tag without `style` it resolves to the XML value `blue`. -/
theorem resolve_cascade_witness :
    "fill" ∈ svgspec.presentation_attributes ∧
    (∀ p ∈ exampleStylePieces, p.wellFormed = true) ∧
    String.mk (styleText exampleStylePieces) = " stroke : black ;; fill:red " ∧
    (resolve [("id", "b"), ("style", " stroke : black ;; fill:red "), ("fill", "blue"),
        ("stroke", "none")]).cssAttributes.entries.lookup "fill" = some "red" ∧
    (resolve [("id", "b"), ("fill", "blue")]).cssAttributes.entries.lookup "fill"
      = some "blue" :=
  have hwf : ∀ p ∈ exampleStylePieces, p.wellFormed = true :=
    List.all_eq_true.mp (by decide)
  ⟨by decide, hwf, by decide,
   ((resolve_cascade [("id", "b"), ("style", " stroke : black ;; fill:red "),
        ("fill", "blue"), ("stroke", "none")] "fill" (by decide)).1
      exampleStylePieces hwf (by decide)).1 "red" (by decide),
   ((resolve_cascade [("id", "b"), ("fill", "blue")] "fill" (by decide)).2 (by decide)
      "blue" (by decide)).1⟩

/-- The rule of `FunctionTemplate.accepts` at work: a template parameter that occurs in the
type of a parameter is deduced from the argument, and defaults fill what a call leaves out: the
public calls `find<T>("id", "b")`, `find()` and `findAll<T>()` are well-formed. -/
theorem accepts_deduced_and_defaulted :
    FunctionTemplate.accepts
        { templateParams := [("T", false)], params := [(.pointerToParam "T", false)] }
        { templateArgs := 0, args := 1 } = true ∧
    findDecl.accepts { templateArgs := 1, args := 2 } = true ∧
    findDecl.accepts { templateArgs := 0, args := 0 } = true ∧
    findAllDecl.accepts { templateArgs := 1, args := 0 } = true :=
  ⟨by decide, by decide, by decide, by decide⟩

/-- C1 (the code at the failing input): the descent of `find<T>` into the subtree of a child
does not compile. The call of line 209, `findFromParentRaw<T>(...)`, is well-formed, but the
recursive call of line 252 inside `findFromParentRaw<T>` names no template argument, and `T`
has no default and occurs in no parameter type: the call is rejected. -/
theorem findFromParentRaw_recursion_ill_formed :
    findFromParentRawDecl.accepts callAtLine209 = true ∧
    findFromParentRawDecl.accepts callAtLine252 = false :=
  ⟨by decide, by decide⟩

/-- C2 (the code at the failing input): `find<T>` cannot be instantiated. The calls in its own
body are well-formed; the body of `findFromParentRaw<T>`, which it instantiates, is not. -/
theorem find_not_instantiable :
    bodyWellFormed findBody = true ∧
    bodyWellFormed findFromParentRawBody = false ∧
    findInstantiable = false :=
  ⟨by decide, by decide, by decide⟩

/-- C3 (the code at the failing input): the recursion of `findAll<T>` does not compile. Line
231 passes three arguments to `findAll`, which is declared with two parameters; a call with
two arguments and no template argument would be accepted, with `T` defaulted. -/
theorem findAll_recursion_ill_formed :
    findAllDecl.accepts callAtLine231 = false ∧
    callAtLine231.args = 3 ∧ findAllDecl.params.length = 2 ∧
    findAllDecl.accepts { templateArgs := 0, args := 2 } = true :=
  ⟨by decide, rfl, rfl, by decide⟩

/-- C5 (the code at the failing input): `findAll<T>` cannot be instantiated: the predicate
call of line 227 is well-formed, the call of line 231 is not. -/
theorem findAll_not_instantiable :
    itemMatchesSelectorDecl.accepts callAtLine227 = true ∧
    findAllInstantiable = false :=
  ⟨by decide, by decide⟩

/-- C6 (the code at the failing input): neither side of the comparison exists: `find<T>` and
`findAll<T>` both fail to instantiate. -/
theorem find_and_findAll_not_instantiable :
    findInstantiable = false ∧ findAllInstantiable = false :=
  ⟨by decide, by decide⟩

/-- C13 (the code at the failing input): the predicate test of `find<T>` on the children of
the root (line 204) is well-formed, but the same test on deeper nodes (line 248, inside
`findFromParentRaw<T>`) calls `itemMatchesSelector` without a template argument, which cannot
be deduced: the call is rejected. -/
theorem itemMatchesSelector_call_ill_formed :
    itemMatchesSelectorDecl.accepts callAtLine204 = true ∧
    itemMatchesSelectorDecl.accepts callAtLine248 = false :=
  ⟨by decide, by decide⟩

end svgscene
